import Mathlib

/-!
Verification of the persistence layer in `src/stores/index.ts`
(state rehydration, the size-bounded persistence retry loop, the state
trimmer, and the single-key action dispatch helper).

The embedding is shallow: the TypeScript functions `trimState`,
`restoreOldState`, `persistNewState`'s subscribe listener, and `dispatch`
are translated into Lean functions.  JavaScript objects used as string
maps become association lists in key order; `localStorage` becomes an
explicit read value / write oracle; thrown exceptions become `Except`.
In-place mutation (relevant only to the aliasing claims) is modelled
separately with an explicit heap of objects.
-/

namespace NewGamePortal

/-- Modelled from the spec: the shape of a match-record (`../types` is not
part of the given source).  A match carries an identity, a foreign key to a
specification-id, and a `lastUpdatedOn` timestamp; other payload is
irrelevant to this module. -/
structure MatchInfo where
  matchId : String
  gameSpecId : String
  lastUpdatedOn : Int
deriving DecidableEq, Repr

/-- Window dimensions record `{windowWidth, windowHeight}`. -/
structure WindowDimensions where
  windowWidth : Int
  windowHeight : Int
deriving DecidableEq, Repr

/-- Modelled from the spec: `StoreState` (`../types` is not part of the
given source): a mapping from specification-id to specification-record, an
ordered list of match-records, a mapping from phone-number to
contact-record, a current-user record, and window dimensions.  Mappings are
association lists in key order; specification-records, contact-records and
the user record are abstract payload strings. -/
structure StoreState where
  gameSpecs : List (String × String)
  matchesList : List MatchInfo
  phoneNumberToContact : List (String × String)
  myUser : String
  windowDimensions : Option WindowDimensions
deriving DecidableEq, Repr

/-- Modelled from the spec: `storeStateDefault` (`./defaults` is not part of
the given source): the constant fallback `DefaultState`, with empty
collections. -/
def storeStateDefault : StoreState :=
  { gameSpecs := []
    matchesList := []
    phoneNumberToContact := []
    myUser := ""
    windowDimensions := none }

/-- The error taxonomy of the spec for storage and codec failures. -/
inductive JsError where
  | quotaExceeded
  | unavailable
  | corruptSnapshot
deriving DecidableEq, Repr

/-- `checkIfLocalStorageWorks`: if a window exists but exposes no
`localStorage`, the probe fails; otherwise a test write/remove pair is
attempted and any thrown error (`testWrite = some e`) fails the probe. -/
def checkIfLocalStorageWorks (windowDefined localStorageInWindow : Bool)
    (testWrite : Option JsError) : Bool :=
  if windowDefined ∧ ¬localStorageInWindow then
    false
  else
    match testWrite with
    | some _ => false
    | none => true

/-- `restoreOldState`: read the storage key; a truthy (present, non-empty)
stored string is fed to `JSON.parse` (the `parse` argument, which may fail);
there is no surrounding try/catch, so a parse error propagates. -/
def restoreOldState (hasLocalStorage : Bool) (storedValue : Option String)
    (parse : String → Except JsError StoreState) :
    Except JsError (Option StoreState) :=
  if hasLocalStorage then
    match storedValue with
    | some str => if str ≠ "" then (parse str).map some else .ok none
    | none => .ok none
  else
    .ok none

/-- The game specs whose id is referenced by no match (the `gameSpecsToDelete`
list computed by `trimState`), in key order. -/
def orphanSpecIds (state : StoreState) : List String :=
  (state.gameSpecs.map Prod.fst).filter
    (fun specId =>
      (state.matchesList.find? (fun m => decide (m.gameSpecId = specId))).isNone)

/-- One step of the `reduce` in `trimState`: keep the accumulator unless it is
strictly newer than the current match. -/
def selectOlder (accum curr : MatchInfo) : MatchInfo :=
  if accum.lastUpdatedOn > curr.lastUpdatedOn then curr else accum

/-- `Array.prototype.indexOf`: index of the first occurrence, `length` when
absent (the source always calls it on an element of the list). -/
def jsIndexOf : List MatchInfo → MatchInfo → Nat
  | [], _ => 0
  | c :: l, m => if c = m then 0 else jsIndexOf l m + 1

/-- The match-removal step of `trimState`: `reduce` over the whole list with
`matchesList[0]` as the initial accumulator picks the oldest match, then
`indexOf` + `splice(idx, 1)` removes it. -/
def removeOldestMatch (l : List MatchInfo) : List MatchInfo :=
  match l with
  | [] => []
  | m0 :: rest =>
    let oldestMatch := (m0 :: rest).foldl selectOlder m0
    (m0 :: rest).eraseIdx (jsIndexOf (m0 :: rest) oldestMatch)

/-- `trimState` from the source: delete all orphaned game specs if any;
else remove the match with the oldest `lastUpdatedOn`; else clear the
phone-number-to-contact map; else return the default state with only
`myUser` carried over. -/
def trimState (state : StoreState) : StoreState :=
  if state.gameSpecs.length > 0 ∧ (orphanSpecIds state).length > 0 then
    { state with
      gameSpecs := state.gameSpecs.filter (fun p => decide (p.1 ∉ orphanSpecIds state)) }
  else if state.matchesList.length > 0 then
    { state with matchesList := removeOldestMatch state.matchesList }
  else if state.phoneNumberToContact.length > 0 then
    { state with phoneNumberToContact := [] }
  else
    { storeStateDefault with myUser := state.myUser }

/-- Modelled from the spec: `deepCopy` (`../globals` is not part of the given
source) produces an equal but non-aliased copy; at the level of values it is
the identity (aliasing is treated in the heap model below). -/
def deepCopy (state : StoreState) : StoreState := state

/-- `saveStateInLocalStorage`: a single `localStorage.setItem` of the encoded
state; the write oracle reports `none` on success or the thrown error.  The
JSON encoding is folded into the oracle (it is deterministic in the state). -/
def saveStateInLocalStorage (write : StoreState → Option JsError)
    (state : StoreState) : Except JsError Unit :=
  match write state with
  | none => .ok ()
  | some e => .error e

/-- Outcome of one invocation of the subscribe listener:  how many writes
were attempted, how many trim iterations ran, and the value stored on
success (if any). -/
structure PersistResult where
  writesAttempted : Nat
  trims : Nat
  stored : Option StoreState
deriving DecidableEq, Repr

/-- The `for (let i = 0; i < 100; i++)` recovery loop of the listener:
each iteration reassigns `state = trimState(state)`, attempts the write,
returns on success, and catches any thrown error to try again.  `attempt`
numbers the write attempts for the oracle; `fuel` is the remaining
iteration budget. -/
def retryLoop (write : Nat → StoreState → Option JsError) (attempt : Nat) :
    Nat → StoreState → PersistResult
  | 0, _ => { writesAttempted := 0, trims := 0, stored := none }
  | fuel + 1, state =>
    let trimmed := trimState state
    match saveStateInLocalStorage (write attempt) trimmed with
    | .ok _ => { writesAttempted := 1, trims := 1, stored := some trimmed }
    | .error _ =>
      let r := retryLoop write (attempt + 1) fuel trimmed
      { writesAttempted := r.writesAttempted + 1
        trims := r.trims + 1
        stored := r.stored }

/-- The body of the callback passed to `store.subscribe` in
`persistNewState`: if local storage works, try one write of the live state;
on any thrown error, deep-copy the state and run the bounded recovery loop
(100 iterations).  `Except` is the listener's interface to its caller: every
path that catches produces `.ok`; an uncaught error would be `.error`. -/
def listenerBody (hasLocalStorage : Bool)
    (write : Nat → StoreState → Option JsError) (liveState : StoreState) :
    Except JsError PersistResult :=
  if hasLocalStorage then
    match saveStateInLocalStorage (write 0) liveState with
    | .ok _ => .ok { writesAttempted := 1, trims := 0, stored := some liveState }
    | .error _ =>
      let r := retryLoop write 1 100 (deepCopy liveState)
      .ok { r with writesAttempted := r.writesAttempted + 1 }
  else
    .ok { writesAttempted := 0, trims := 0, stored := none }

/-- `persistNewState`: calls `store.subscribe` unconditionally, registering
exactly one listener; the availability check lives inside the listener body.
The returned list is the set of registered change-listeners. -/
def persistNewState (hasLocalStorage : Bool)
    (write : Nat → StoreState → Option JsError) :
    List (StoreState → Except JsError PersistResult) :=
  [listenerBody hasLocalStorage write]

/-- Modelled from the spec: `checkCondition` (`../globals` is not part of the
given source) fails fast — it aborts with the given description when the
condition is false, and this is not recoverable. -/
def checkCondition (desc : String) (cond : Bool) : Except String Unit :=
  if cond then .ok () else .error desc

/-- `dispatch`: take the action object's own keys; `checkCondition` requires
exactly one; set `type` to that key and forward to the store.  The result is
the dispatched action's `type` together with its original key/value pairs. -/
def dispatch (action : List (String × String)) :
    Except String (String × List (String × String)) :=
  let actionType := action.map Prod.fst
  match checkCondition "actionType" (decide (actionType.length = 1)) with
  | .error e => .error e
  | .ok _ => .ok (actionType.headD "", action)

/-! ## Helper lemmas -/

/-- Membership in `orphanSpecIds`: a key of the spec map that no match
references. -/
theorem mem_orphanSpecIds (s : StoreState) (k : String) :
    k ∈ orphanSpecIds s ↔
      k ∈ s.gameSpecs.map Prod.fst ∧ ∀ m ∈ s.matchesList, m.gameSpecId ≠ k := by
  simp [orphanSpecIds, List.mem_filter, Option.isNone_iff_eq_none, List.find?_eq_none]

/-- A list filtered by a predicate false at one of its members gets strictly
shorter. -/
theorem filter_length_lt {α : Type} (p : α → Bool) (l : List α) (x : α)
    (hx : x ∈ l) (hpx : p x = false) : (l.filter p).length < l.length := by
  induction l with
  | nil => cases hx
  | cons a l ih =>
    rcases List.mem_cons.mp hx with rfl | hx
    · rw [List.filter_cons_of_neg (by simp [hpx])]
      exact Nat.lt_succ_of_le (List.length_filter_le p l)
    · by_cases hpa : p a = true
      · rw [List.filter_cons_of_pos hpa]
        exact Nat.succ_lt_succ (ih hx)
      · rw [List.filter_cons_of_neg (by simpa using hpa)]
        exact Nat.lt_succ_of_lt (ih hx)

/-- Branch 1 of `trimState`: with at least one orphaned spec, the orphans
are deleted from the spec map and nothing else changes. -/
theorem trimState_of_orphans (s : StoreState) (h : orphanSpecIds s ≠ []) :
    trimState s =
      { s with gameSpecs :=
          s.gameSpecs.filter (fun p => decide (p.1 ∉ orphanSpecIds s)) } := by
  have hg : s.gameSpecs ≠ [] := by
    intro h0
    exact h (by rw [orphanSpecIds, h0]; rfl)
  unfold trimState
  rw [if_pos ⟨List.length_pos.mpr hg, List.length_pos.mpr h⟩]

/-- Branch 2 of `trimState`: with no orphaned spec and a non-empty match
list, the oldest match is removed and nothing else changes. -/
theorem trimState_of_matches (s : StoreState) (h1 : orphanSpecIds s = [])
    (h2 : s.matchesList ≠ []) :
    trimState s = { s with matchesList := removeOldestMatch s.matchesList } := by
  have c1 : ¬ (s.gameSpecs.length > 0 ∧ (orphanSpecIds s).length > 0) := by
    rw [h1]; simp
  unfold trimState
  rw [if_neg c1, if_pos (List.length_pos.mpr h2)]

/-- Branch 3 of `trimState`: with no specs, no matches and a non-empty
contact map, the contact map is cleared and nothing else changes. -/
theorem trimState_of_contacts (s : StoreState) (hg : s.gameSpecs = [])
    (hm : s.matchesList = []) (hc : s.phoneNumberToContact ≠ []) :
    trimState s = { s with phoneNumberToContact := [] } := by
  have c1 : ¬ (s.gameSpecs.length > 0 ∧ (orphanSpecIds s).length > 0) := by
    rw [hg]; simp
  have c2 : ¬ (s.matchesList.length > 0) := by rw [hm]; simp
  unfold trimState
  rw [if_neg c1, if_neg c2, if_pos (List.length_pos.mpr hc)]

/-- The default state with only the current user carried over: the last
resort of `trimState`. -/
def defaultWithMyUser (s : StoreState) : StoreState :=
  { storeStateDefault with myUser := s.myUser }

/-- Branch 4 of `trimState`: everything empty yields the default state with
`myUser` carried over. -/
theorem trimState_of_empty (s : StoreState) (hg : s.gameSpecs = [])
    (hm : s.matchesList = []) (hc : s.phoneNumberToContact = []) :
    trimState s = defaultWithMyUser s := by
  have c1 : ¬ (s.gameSpecs.length > 0 ∧ (orphanSpecIds s).length > 0) := by
    rw [hg]; simp
  have c2 : ¬ (s.matchesList.length > 0) := by rw [hm]; simp
  have c3 : ¬ (s.phoneNumberToContact.length > 0) := by rw [hc]; simp
  unfold trimState
  rw [if_neg c1, if_neg c2, if_neg c3]
  rfl

/-- The default-with-user state is a fixed point of `trimState`. -/
theorem trimState_default_fix (s : StoreState) :
    trimState (defaultWithMyUser s) = defaultWithMyUser s :=
  trimState_of_empty (defaultWithMyUser s) rfl rfl rfl

/-- When every write attempt fails, the recovery loop runs through its whole
fuel, trimming once and attempting one write per iteration, and ends with
nothing stored. -/
theorem retryLoop_allFail (write : Nat → StoreState → Option JsError)
    (hw : ∀ i s, (write i s).isSome = true) (fuel : Nat) :
    ∀ attempt state, retryLoop write attempt fuel state =
      { writesAttempted := fuel, trims := fuel, stored := none } := by
  induction fuel with
  | zero => intro attempt state; rfl
  | succ n ih =>
    intro attempt state
    have h := hw attempt (trimState state)
    cases hws : write attempt (trimState state) with
    | none => rw [hws] at h; simp at h
    | some e =>
      show retryLoop write attempt (n + 1) state = _
      simp only [retryLoop, saveStateInLocalStorage, hws]
      rw [ih]

/-! ## C1 -/

/-- C1: when every storage write fails with `QuotaExceeded`, the subscribe
listener performs exactly 100 trim/write iterations of the recovery loop
(101 write attempts in total, counting the initial one), stores nothing,
and returns normally — `.ok`, so no exception reaches the caller. -/
theorem persistLoop_quota_abandons_after_100_trims
    (write : Nat → StoreState → Option JsError) (liveState : StoreState)
    (hw : ∀ i s, write i s = some JsError.quotaExceeded) :
    listenerBody true write liveState =
      .ok { writesAttempted := 101, trims := 100, stored := none } := by
  have h0 := hw 0 liveState
  simp only [listenerBody, saveStateInLocalStorage, h0, if_true]
  rw [retryLoop_allFail write (fun i s => by rw [hw i s]; rfl) 100 1 (deepCopy liveState)]

/-- Witness for C1 at a concrete oracle and state. -/
theorem persistLoop_quota_abandons_after_100_trims_witness :
    listenerBody true (fun _ _ => some JsError.quotaExceeded) storeStateDefault =
      .ok { writesAttempted := 101, trims := 100, stored := none } :=
  persistLoop_quota_abandons_after_100_trims
    (fun _ _ => some JsError.quotaExceeded) storeStateDefault (fun _ _ => rfl)

/-! ## C4 -/

/-- C4 counterexample: with a write oracle that always fails with
`Unavailable` (a non-quota error), the listener does not abandon
immediately: it runs the full 100-iteration trim/retry path, refuting
"no retry and no trimming" (which would be 1 write attempt and 0 trims). -/
theorem persistLoop_unavailable_not_abandoned_immediately
    : listenerBody true (fun _ _ => some JsError.unavailable) storeStateDefault =
        .ok { writesAttempted := 101, trims := 100, stored := none } ∧
      listenerBody true (fun _ _ => some JsError.unavailable) storeStateDefault ≠
        .ok { writesAttempted := 1, trims := 0, stored := none } := by
  have h : listenerBody true (fun _ _ => some JsError.unavailable) storeStateDefault =
      .ok { writesAttempted := 101, trims := 100, stored := none } := by
    simp only [listenerBody, saveStateInLocalStorage, if_true]
    rw [retryLoop_allFail (fun _ _ => some JsError.unavailable) (fun _ _ => rfl) 100 1]
  refine ⟨h, ?_⟩
  rw [h]
  intro hcontra
  simp at hcontra

/-- C4 amended: the catch on the write path does not inspect the error
kind: a write failure of any kind (`Unavailable` and `CorruptSnapshot`
included) sends the listener into the same deep-copy trim/retry recovery as
`QuotaExceeded`, up to 100 iterations, abandoning silently only when the
bound is exhausted. -/
theorem persistLoop_any_error_enters_retry_path
    (write : Nat → StoreState → Option JsError) (liveState : StoreState)
    (e : JsError) (hw : ∀ i s, write i s = some e) :
    listenerBody true write liveState =
      .ok { writesAttempted := 101, trims := 100, stored := none } := by
  have h0 := hw 0 liveState
  simp only [listenerBody, saveStateInLocalStorage, h0, if_true]
  rw [retryLoop_allFail write (fun i s => by rw [hw i s]; rfl) 100 1 (deepCopy liveState)]

/-- Witness for the amended C4 at a concrete `CorruptSnapshot` oracle. -/
theorem persistLoop_any_error_enters_retry_path_witness :
    listenerBody true (fun _ _ => some JsError.corruptSnapshot) storeStateDefault =
      .ok { writesAttempted := 101, trims := 100, stored := none } :=
  persistLoop_any_error_enters_retry_path
    (fun _ _ => some JsError.corruptSnapshot) storeStateDefault
    JsError.corruptSnapshot (fun _ _ => rfl)

/-! ## C10 -/

/-- C10 counterexample: even when the startup probe fails (here a simulated
quota exception on the test write), `persistNewState` still calls
`store.subscribe`, so one change-listener is registered — not zero. -/
theorem listener_registered_despite_failed_probe
    : (persistNewState
        (checkIfLocalStorageWorks true true (some JsError.quotaExceeded))
        (fun _ _ => some JsError.quotaExceeded)).length = 1 ∧
      (persistNewState
        (checkIfLocalStorageWorks true true (some JsError.quotaExceeded))
        (fun _ _ => some JsError.quotaExceeded)).length ≠ 0 := by
  exact ⟨rfl, by decide⟩

/-- C10 amended: when the startup probe fails, a change-listener is still
registered (subscribe is unconditional), but the cached probe result makes
every invocation of the listener a no-op: no write is attempted and no trim
runs, for any oracle and any state. -/
theorem failed_probe_silences_listener
    (windowDefined localStorageInWindow : Bool) (testWrite : Option JsError)
    (write : Nat → StoreState → Option JsError) (liveState : StoreState)
    (hprobe : checkIfLocalStorageWorks windowDefined localStorageInWindow testWrite = false) :
    (persistNewState (checkIfLocalStorageWorks windowDefined localStorageInWindow testWrite)
        write).length = 1 ∧
    listenerBody (checkIfLocalStorageWorks windowDefined localStorageInWindow testWrite)
        write liveState =
      .ok { writesAttempted := 0, trims := 0, stored := none } := by
  rw [hprobe]
  exact ⟨rfl, rfl⟩

/-- Witness for the amended C10: probe failed by a quota error on the test
write. -/
theorem failed_probe_silences_listener_witness :
    (persistNewState (checkIfLocalStorageWorks true true (some JsError.quotaExceeded))
        (fun _ _ => none)).length = 1 ∧
    listenerBody (checkIfLocalStorageWorks true true (some JsError.quotaExceeded))
        (fun _ _ => none) storeStateDefault =
      .ok { writesAttempted := 0, trims := 0, stored := none } :=
  failed_probe_silences_listener true true (some JsError.quotaExceeded)
    (fun _ _ => none) storeStateDefault rfl

/-! ## C2 -/

/-- C2 counterexample: with a non-empty stored string on which decode fails,
`restoreOldState` does not fall back — the decode error propagates uncaught
(there is no try/catch around `JSON.parse`), so the startup path crashes
instead of discarding the snapshot. -/
theorem restore_crashes_on_corrupt_snapshot
    : restoreOldState true (some "corrupt")
        (fun _ => .error JsError.corruptSnapshot) =
        .error JsError.corruptSnapshot ∧
      restoreOldState true (some "corrupt")
        (fun _ => .error JsError.corruptSnapshot) ≠ .ok none := by
  constructor
  · rfl
  · intro h
    rw [show restoreOldState true (some "corrupt")
          (fun _ => .error JsError.corruptSnapshot) =
          Except.error JsError.corruptSnapshot from rfl] at h
    exact Except.noConfusion h

/-- C2 amended: the startup read tolerates a missing backend, an absent key
and an empty stored string by yielding no snapshot (so the store starts from
the default state), but when a non-empty stored string is present and decode
fails, the error propagates uncaught out of `restoreOldState`. -/
theorem restore_tolerates_absence_but_not_corruption
    (storedValue : Option String) (parse : String → Except JsError StoreState) :
    restoreOldState false storedValue parse = .ok none ∧
    restoreOldState true none parse = .ok none ∧
    restoreOldState true (some "") parse = .ok none ∧
    (∀ str e, str ≠ "" → parse str = .error e →
      restoreOldState true (some str) parse = .error e) := by
  refine ⟨rfl, rfl, by simp [restoreOldState], ?_⟩
  intro str e hstr hparse
  simp [restoreOldState, hstr, hparse, Except.map]

/-- Witness for the amended C2 at concrete inputs. -/
theorem restore_tolerates_absence_but_not_corruption_witness :
    restoreOldState true none (fun _ => .ok storeStateDefault) = .ok none ∧
    restoreOldState true (some "bad")
      (fun _ => .error JsError.corruptSnapshot) = .error JsError.corruptSnapshot := by
  constructor
  · exact (restore_tolerates_absence_but_not_corruption none
      (fun _ => .ok storeStateDefault)).2.1
  · exact (restore_tolerates_absence_but_not_corruption (some "bad")
      (fun _ => .error JsError.corruptSnapshot)).2.2.2 "bad"
      JsError.corruptSnapshot (by decide) rfl

/-! ## C9 -/

/-- C9: `dispatch` demands an action object with exactly one own key: with a
single key it dispatches the action whose `type` is that key's name; with
zero or several keys `checkCondition` fails fast and nothing is dispatched. -/
theorem dispatch_requires_exactly_one_key (action : List (String × String)) :
    (∀ k v, action = [(k, v)] → dispatch action = .ok (k, action)) ∧
    (action.length ≠ 1 → dispatch action = .error "actionType") := by
  constructor
  · intro k v h
    subst h
    rfl
  · intro h
    simp [dispatch, checkCondition, List.length_map, h]

/-- Witness for C9: a one-key action dispatches with that key as its type;
the empty action fails fast. -/
theorem dispatch_requires_exactly_one_key_witness :
    dispatch [("setWindowDimensions", "800x600")] =
      .ok ("setWindowDimensions", [("setWindowDimensions", "800x600")]) ∧
    dispatch [] = .error "actionType" := by
  constructor
  · exact (dispatch_requires_exactly_one_key
      [("setWindowDimensions", "800x600")]).1 "setWindowDimensions" "800x600" rfl
  · exact (dispatch_requires_exactly_one_key []).2 (by decide)

/-! ## C5 -/

/-- C5: when at least one spec-record is referenced by no match, a single
`trimState` call keeps exactly the referenced spec-records (deleting all
orphans in one pass) and leaves the match list, the contact map, the user
and the window dimensions unchanged. -/
theorem trim_deletes_all_orphaned_specs (s : StoreState)
    (h : ∃ p ∈ s.gameSpecs, ∀ m ∈ s.matchesList, m.gameSpecId ≠ p.1) :
    (trimState s).gameSpecs =
      s.gameSpecs.filter
        (fun p => decide (∃ m ∈ s.matchesList, m.gameSpecId = p.1)) ∧
    (trimState s).matchesList = s.matchesList ∧
    (trimState s).phoneNumberToContact = s.phoneNumberToContact ∧
    (trimState s).myUser = s.myUser ∧
    (trimState s).windowDimensions = s.windowDimensions := by
  obtain ⟨p, hp, href⟩ := h
  have hOrphan : p.1 ∈ orphanSpecIds s :=
    (mem_orphanSpecIds s p.1).mpr ⟨List.mem_map_of_mem Prod.fst hp, href⟩
  have htrim := trimState_of_orphans s (List.ne_nil_of_mem hOrphan)
  rw [htrim]
  refine ⟨?_, rfl, rfl, rfl, rfl⟩
  apply List.filter_congr
  intro q hq
  simp only [decide_eq_decide]
  constructor
  · intro hno
    by_contra hnex
    push_neg at hnex
    exact hno ((mem_orphanSpecIds s q.1).mpr
      ⟨List.mem_map_of_mem Prod.fst hq, hnex⟩)
  · rintro ⟨m, hm, hme⟩ horph
    exact ((mem_orphanSpecIds s q.1).mp horph).2 m hm hme

/-- The C5 scenario: 3 spec-records of which only `s2` is referenced. -/
def c5State : StoreState :=
  { gameSpecs := [("s1", "a"), ("s2", "b"), ("s3", "c")]
    matchesList := [{ matchId := "m1", gameSpecId := "s2", lastUpdatedOn := 5 }]
    phoneNumberToContact := [("555", "contact")]
    myUser := "me"
    windowDimensions := none }

/-- Witness for C5: the 3-spec scenario, where `trim` removes exactly the
two unreferenced specs. -/
theorem trim_deletes_all_orphaned_specs_witness :
    (∃ p ∈ c5State.gameSpecs, ∀ m ∈ c5State.matchesList, m.gameSpecId ≠ p.1) ∧
    ((trimState c5State).gameSpecs =
       c5State.gameSpecs.filter
         (fun p => decide (∃ m ∈ c5State.matchesList, m.gameSpecId = p.1)) ∧
     (trimState c5State).matchesList = c5State.matchesList ∧
     (trimState c5State).phoneNumberToContact = c5State.phoneNumberToContact ∧
     (trimState c5State).myUser = c5State.myUser ∧
     (trimState c5State).windowDimensions = c5State.windowDimensions) :=
  ⟨by decide, trim_deletes_all_orphaned_specs c5State (by decide)⟩

/-! ## C6 -/

/-- The `reduce` over `selectOlder` yields a value no newer than the
initial accumulator and than every list element, and it is either the
accumulator itself or sits at a position strictly before which every
element is strictly newer. -/
theorem foldl_selectOlder_spec (l : List MatchInfo) :
    ∀ a : MatchInfo,
      (l.foldl selectOlder a).lastUpdatedOn ≤ a.lastUpdatedOn ∧
      (∀ c ∈ l, (l.foldl selectOlder a).lastUpdatedOn ≤ c.lastUpdatedOn) ∧
      (l.foldl selectOlder a = a ∨
        ∃ i, ∃ hi : i < l.length,
          l.foldl selectOlder a = l.get ⟨i, hi⟩ ∧
          (l.foldl selectOlder a).lastUpdatedOn < a.lastUpdatedOn ∧
          ∀ m ∈ l.take i,
            (l.foldl selectOlder a).lastUpdatedOn < m.lastUpdatedOn) := by
  induction l with
  | nil =>
    intro a
    exact ⟨le_refl _, by simp, Or.inl rfl⟩
  | cons c l ih =>
    intro a
    rw [List.foldl_cons]
    by_cases hgt : a.lastUpdatedOn > c.lastUpdatedOn
    · have ha : selectOlder a c = c := by simp only [selectOlder, if_pos hgt]
      rw [ha]
      obtain ⟨hb, hall, hpos⟩ := ih c
      refine ⟨le_of_lt (lt_of_le_of_lt hb hgt), ?_, ?_⟩
      · intro x hx
        rcases List.mem_cons.mp hx with rfl | hx
        · exact hb
        · exact hall x hx
      · rcases hpos with heq | ⟨i, hi, hei, hlt, hbefore⟩
        · refine Or.inr ⟨0, Nat.succ_pos _, ?_, ?_, ?_⟩
          · rw [heq]; rfl
          · rw [heq]; exact hgt
          · intro m hm; simp at hm
        · refine Or.inr ⟨i + 1, Nat.succ_lt_succ hi, ?_, lt_trans hlt hgt, ?_⟩
          · rw [hei]; rfl
          · intro m hm
            rw [List.take_succ_cons] at hm
            rcases List.mem_cons.mp hm with rfl | hm
            · exact hlt
            · exact hbefore m hm
    · have ha : selectOlder a c = a := by simp only [selectOlder, if_neg hgt]
      rw [ha]
      obtain ⟨hb, hall, hpos⟩ := ih a
      have hac : a.lastUpdatedOn ≤ c.lastUpdatedOn := le_of_not_lt hgt
      refine ⟨hb, ?_, ?_⟩
      · intro x hx
        rcases List.mem_cons.mp hx with rfl | hx
        · exact le_trans hb hac
        · exact hall x hx
      · rcases hpos with heq | ⟨i, hi, hei, hlt, hbefore⟩
        · exact Or.inl heq
        · refine Or.inr ⟨i + 1, Nat.succ_lt_succ hi, ?_, hlt, ?_⟩
          · rw [hei]; rfl
          · intro m hm
            rw [List.take_succ_cons] at hm
            rcases List.mem_cons.mp hm with rfl | hm
            · exact lt_of_lt_of_le hlt hac
            · exact hbefore m hm

/-- `indexOf` returns `i` when the element sits at position `i` and occurs
nowhere earlier. -/
theorem jsIndexOf_eq (l : List MatchInfo) (m : MatchInfo) :
    ∀ i, ∀ hi : i < l.length, l.get ⟨i, hi⟩ = m →
      (∀ x ∈ l.take i, x ≠ m) → jsIndexOf l m = i := by
  induction l with
  | nil =>
    intro i hi
    exact absurd hi (Nat.not_lt_zero i)
  | cons c l ih =>
    intro i hi he hb
    cases i with
    | zero =>
      have hc : c = m := he
      simp [jsIndexOf, hc]
    | succ j =>
      have hc : c ≠ m := hb c (by rw [List.take_succ_cons]; exact List.mem_cons_self c _)
      have hrec := ih j (Nat.lt_of_succ_lt_succ hi) he
        (fun x hx => hb x (by rw [List.take_succ_cons]; exact List.mem_cons_of_mem c hx))
      simp [jsIndexOf, hc, hrec]

/-- `removeOldestMatch` erases the first position attaining the minimum
`lastUpdatedOn`. -/
theorem removeOldestMatch_spec (l : List MatchInfo) (hl : l ≠ []) :
    ∃ i, ∃ hi : i < l.length,
      (∀ m ∈ l, (l.get ⟨i, hi⟩).lastUpdatedOn ≤ m.lastUpdatedOn) ∧
      (∀ m ∈ l.take i, (l.get ⟨i, hi⟩).lastUpdatedOn < m.lastUpdatedOn) ∧
      removeOldestMatch l = l.eraseIdx i := by
  obtain ⟨m0, rest, rfl⟩ := List.exists_cons_of_ne_nil hl
  obtain ⟨hb, hall, hpos⟩ := foldl_selectOlder_spec (m0 :: rest) m0
  have hrm : removeOldestMatch (m0 :: rest) =
      (m0 :: rest).eraseIdx
        (jsIndexOf (m0 :: rest) ((m0 :: rest).foldl selectOlder m0)) := rfl
  rcases hpos with heq | ⟨i, hi, hei, hlt, hbefore⟩
  · refine ⟨0, Nat.succ_pos _, ?_, ?_, ?_⟩
    · intro m hm
      have h' := hall m hm
      rw [heq] at h'
      exact h'
    · intro m hm
      simp at hm
    · rw [hrm, jsIndexOf_eq (m0 :: rest) _ 0 (Nat.succ_pos _) heq.symm
        (by intro x hx; simp at hx)]
  · refine ⟨i, hi, ?_, ?_, ?_⟩
    · intro m hm
      have h' := hall m hm
      rw [hei] at h'
      exact h'
    · intro m hm
      have h' := hbefore m hm
      rw [hei] at h'
      exact h'
    · have hbne : ∀ x ∈ (m0 :: rest).take i,
          x ≠ (m0 :: rest).foldl selectOlder m0 := by
        intro x hx hxe
        have h' := hbefore x hx
        rw [hxe] at h'
        exact lt_irrefl _ h'
      rw [hrm, jsIndexOf_eq (m0 :: rest) _ i hi hei.symm hbne]

/-- Removing the oldest match shortens a non-empty list by one. -/
theorem removeOldestMatch_length (l : List MatchInfo) (hl : l ≠ []) :
    (removeOldestMatch l).length = l.length - 1 := by
  obtain ⟨i, hi, _, _, he⟩ := removeOldestMatch_spec l hl
  rw [he, List.length_eraseIdx_of_lt hi]

/-- C6: with no orphaned spec-record and a non-empty match list, `trimState`
removes exactly the match at the first position attaining the minimum
`lastUpdatedOn` (first occurrence wins ties) and leaves every other field
unchanged. -/
theorem trim_removes_first_oldest_match (s : StoreState)
    (h1 : ∀ p ∈ s.gameSpecs, ∃ m ∈ s.matchesList, m.gameSpecId = p.1)
    (h2 : s.matchesList ≠ []) :
    ∃ i, ∃ hi : i < s.matchesList.length,
      (∀ m ∈ s.matchesList,
        (s.matchesList.get ⟨i, hi⟩).lastUpdatedOn ≤ m.lastUpdatedOn) ∧
      (∀ m ∈ s.matchesList.take i,
        (s.matchesList.get ⟨i, hi⟩).lastUpdatedOn < m.lastUpdatedOn) ∧
      (trimState s).matchesList = s.matchesList.eraseIdx i ∧
      (trimState s).gameSpecs = s.gameSpecs ∧
      (trimState s).phoneNumberToContact = s.phoneNumberToContact ∧
      (trimState s).myUser = s.myUser ∧
      (trimState s).windowDimensions = s.windowDimensions := by
  have horph : orphanSpecIds s = [] := by
    rw [orphanSpecIds, List.filter_eq_nil_iff]
    intro k hk
    rw [List.mem_map] at hk
    obtain ⟨p, hp, rfl⟩ := hk
    obtain ⟨m, hm, hme⟩ := h1 p hp
    intro hnone
    rw [Option.isNone_iff_eq_none, List.find?_eq_none] at hnone
    have hne : m.gameSpecId ≠ p.1 := by simpa using hnone m hm
    exact hne hme
  have htrim := trimState_of_matches s horph h2
  obtain ⟨i, hi, hmin, hbefore, herase⟩ := removeOldestMatch_spec s.matchesList h2
  exact ⟨i, hi, hmin, hbefore, by rw [htrim]; exact herase,
    by rw [htrim], by rw [htrim], by rw [htrim], by rw [htrim]⟩

/-- The C6 scenario: no specs, two matches with `lastUpdatedOn` 200 and
100. -/
def c6State : StoreState :=
  { gameSpecs := []
    matchesList :=
      [{ matchId := "m1", gameSpecId := "g", lastUpdatedOn := 200 },
       { matchId := "m2", gameSpecId := "g", lastUpdatedOn := 100 }]
    phoneNumberToContact := []
    myUser := "me"
    windowDimensions := none }

/-- Witness for C6: in the two-match scenario `trim` removes the match with
`lastUpdatedOn` 100. -/
theorem trim_removes_first_oldest_match_witness :
    (∀ p ∈ c6State.gameSpecs, ∃ m ∈ c6State.matchesList, m.gameSpecId = p.1) ∧
    c6State.matchesList ≠ [] ∧
    (∃ i, ∃ hi : i < c6State.matchesList.length,
      (∀ m ∈ c6State.matchesList,
        (c6State.matchesList.get ⟨i, hi⟩).lastUpdatedOn ≤ m.lastUpdatedOn) ∧
      (∀ m ∈ c6State.matchesList.take i,
        (c6State.matchesList.get ⟨i, hi⟩).lastUpdatedOn < m.lastUpdatedOn) ∧
      (trimState c6State).matchesList = c6State.matchesList.eraseIdx i ∧
      (trimState c6State).gameSpecs = c6State.gameSpecs ∧
      (trimState c6State).phoneNumberToContact = c6State.phoneNumberToContact ∧
      (trimState c6State).myUser = c6State.myUser ∧
      (trimState c6State).windowDimensions = c6State.windowDimensions) :=
  ⟨by decide, by decide,
    trim_removes_first_oldest_match c6State (by decide) (by decide)⟩

/-! ## C7 -/

/-- With an empty match list, every spec key is orphaned. -/
theorem orphanSpecIds_of_no_matches (s : StoreState) (hm : s.matchesList = []) :
    orphanSpecIds s = s.gameSpecs.map Prod.fst := by
  rw [orphanSpecIds, hm]
  apply List.filter_eq_self.mpr
  intro k _
  rfl

/-- Iterating `trimState` `n + 2` times from any state whose spec and match
counts sum to at most `n` lands on the default state with only `myUser`
carried over. -/
theorem trim_iterate_reaches_default (n : Nat) :
    ∀ s : StoreState, s.gameSpecs.length + s.matchesList.length ≤ n →
      trimState^[n + 2] s = defaultWithMyUser s := by
  induction n with
  | zero =>
    intro s hs
    have hg : s.gameSpecs = [] := List.length_eq_zero.mp (by omega)
    have hm : s.matchesList = [] := List.length_eq_zero.mp (by omega)
    have e2 : trimState^[0 + 2] s = trimState (trimState s) := rfl
    rw [e2]
    by_cases hc : s.phoneNumberToContact = []
    · rw [trimState_of_empty s hg hm hc, trimState_default_fix]
    · rw [trimState_of_contacts s hg hm hc]
      exact trimState_of_empty _ hg hm rfl
  | succ n ih =>
    intro s hs
    by_cases hle : s.gameSpecs.length + s.matchesList.length ≤ n
    · have e : trimState^[n + 1 + 2] s = trimState (trimState^[n + 2] s) := by
        rw [show n + 1 + 2 = (n + 2) + 1 from rfl, Function.iterate_succ_apply']
      rw [e, ih s hle, trimState_default_fix]
    · push_neg at hle
      have e : trimState^[n + 1 + 2] s = trimState^[n + 2] (trimState s) := by
        rw [show n + 1 + 2 = (n + 2) + 1 from rfl, Function.iterate_succ_apply]
      by_cases horph : orphanSpecIds s = []
      · by_cases hm : s.matchesList = []
        · exfalso
          have hmap : s.gameSpecs.map Prod.fst = [] := by
            rw [← orphanSpecIds_of_no_matches s hm]
            exact horph
          have hg : s.gameSpecs = [] := List.map_eq_nil_iff.mp hmap
          rw [hg, hm] at hle
          simp at hle
        · have h1 := trimState_of_matches s horph hm
          have hsz : (trimState s).gameSpecs.length +
              (trimState s).matchesList.length ≤ n := by
            rw [h1]
            show s.gameSpecs.length + (removeOldestMatch s.matchesList).length ≤ n
            rw [removeOldestMatch_length s.matchesList hm]
            have hpos : 0 < s.matchesList.length := List.length_pos.mpr hm
            omega
          have hmu : defaultWithMyUser (trimState s) = defaultWithMyUser s := by
            rw [h1]
            rfl
          rw [e, ih (trimState s) hsz, hmu]
      · have h1 := trimState_of_orphans s horph
        obtain ⟨k, hk⟩ := List.exists_mem_of_ne_nil (orphanSpecIds s) horph
        obtain ⟨p, hp, hpk⟩ :=
          List.mem_map.mp ((mem_orphanSpecIds s k).mp hk).1
        have hlt : (s.gameSpecs.filter
            (fun p => decide (p.1 ∉ orphanSpecIds s))).length <
            s.gameSpecs.length := by
          apply filter_length_lt _ _ p hp
          simp only [decide_eq_false_iff_not, not_not]
          rw [hpk]
          exact hk
        have hsz : (trimState s).gameSpecs.length +
            (trimState s).matchesList.length ≤ n := by
          rw [h1]
          show (s.gameSpecs.filter
            (fun p => decide (p.1 ∉ orphanSpecIds s))).length +
            s.matchesList.length ≤ n
          omega
        have hmu : defaultWithMyUser (trimState s) = defaultWithMyUser s := by
          rw [h1]
          rfl
        rw [e, ih (trimState s) hsz, hmu]

/-- C7: iterating `trimState` reaches, within
`|specs| + |matches| + 1 + 1` steps, the fixed point equal to the default
state with only the current user carried over, and that final state is
indeed a fixed point of `trimState`. -/
theorem trim_iteration_reaches_default_fixed_point (s : StoreState) :
    trimState^[s.gameSpecs.length + s.matchesList.length + 1 + 1] s =
      defaultWithMyUser s ∧
    trimState (defaultWithMyUser s) = defaultWithMyUser s :=
  ⟨trim_iterate_reaches_default (s.gameSpecs.length + s.matchesList.length) s
      le_rfl,
   trimState_default_fix s⟩

/-! ## Heap model of object aliasing (C3, C8)

JavaScript `trimState` mutates its argument object in its first three
branches (`delete`, `splice`, property assignment) and `return state`
hands back that same object; only the final branch builds a fresh object
literal.  The heap assigns each allocated object reference (an index) a
`StoreState` value. -/

/-- A heap of JavaScript objects: references are indices. -/
abbrev Heap := List StoreState

/-- The condition under which `trimState` takes one of its first three
branches and `return state` returns the mutated argument itself; the final
branch instead returns a fresh object literal. -/
def trimInPlace (s : StoreState) : Prop :=
  (s.gameSpecs.length > 0 ∧ (orphanSpecIds s).length > 0) ∨
    s.matchesList.length > 0 ∨ s.phoneNumberToContact.length > 0

instance (s : StoreState) : Decidable (trimInPlace s) := by
  unfold trimInPlace
  infer_instance

/-- `trimState` as a heap operation: the first three branches store the
trimmed value into the argument object and return its reference; the final
branch allocates a fresh object and leaves the argument untouched. -/
def trimStateOp (h : Heap) (r : Nat) : Heap × Nat :=
  if trimInPlace (h.getD r storeStateDefault) then
    (h.set r (trimState (h.getD r storeStateDefault)), r)
  else
    (h ++ [trimState (h.getD r storeStateDefault)], h.length)

/-- `deepCopy` as a heap operation: allocate a fresh object holding an
equal value (no sharing with the original). -/
def deepCopyOp (h : Heap) (r : Nat) : Heap × Nat :=
  (h ++ [h.getD r storeStateDefault], h.length)

/-- The recovery loop on the heap: each iteration rebinds the loop variable
to the reference returned by `trimState` (`state = trimState(state)`), then
attempts the write; a thrown error is caught and the loop continues on that
reference. -/
def retryLoopOp (write : Nat → StoreState → Option JsError) (attempt : Nat) :
    Nat → Heap → Nat → Heap × PersistResult
  | 0, h, _ => (h, { writesAttempted := 0, trims := 0, stored := none })
  | fuel + 1, h, r =>
    match write attempt
        ((trimStateOp h r).1.getD (trimStateOp h r).2 storeStateDefault) with
    | none =>
      ((trimStateOp h r).1,
        { writesAttempted := 1
          trims := 1
          stored := some ((trimStateOp h r).1.getD (trimStateOp h r).2
            storeStateDefault) })
    | some _ =>
      ((retryLoopOp write (attempt + 1) fuel (trimStateOp h r).1
          (trimStateOp h r).2).1,
        { writesAttempted := (retryLoopOp write (attempt + 1) fuel
            (trimStateOp h r).1 (trimStateOp h r).2).2.writesAttempted + 1
          trims := (retryLoopOp write (attempt + 1) fuel (trimStateOp h r).1
            (trimStateOp h r).2).2.trims + 1
          stored := (retryLoopOp write (attempt + 1) fuel (trimStateOp h r).1
            (trimStateOp h r).2).2.stored })

/-- The quota-recovery path of the listener on the heap: deep-copy the live
state object, then run the bounded trim/retry loop on the copy. -/
def recoveryOp (write : Nat → StoreState → Option JsError) (h : Heap)
    (live : Nat) : Heap × PersistResult :=
  retryLoopOp write 1 100 (deepCopyOp h live).1 (deepCopyOp h live).2

/-- Writing one reference leaves every other reference's value unchanged. -/
theorem heap_getD_set_ne : ∀ (h : Heap) (i j : Nat) (v : StoreState), i ≠ j →
    (h.set i v).getD j storeStateDefault = h.getD j storeStateDefault := by
  intro h
  induction h with
  | nil => intro i j v _; rfl
  | cons a h ih =>
    intro i j v hne
    cases i with
    | zero =>
      cases j with
      | zero => exact absurd rfl hne
      | succ j => rfl
    | succ i =>
      cases j with
      | zero => rfl
      | succ j => exact ih i j v (fun hc => hne (by rw [hc]))

/-- Reading a written reference yields the written value. -/
theorem heap_getD_set_self : ∀ (h : Heap) (i : Nat) (v : StoreState),
    i < h.length → (h.set i v).getD i storeStateDefault = v := by
  intro h
  induction h with
  | nil => intro i v hi; exact absurd hi (Nat.not_lt_zero i)
  | cons a h ih =>
    intro i v hi
    cases i with
    | zero => rfl
    | succ i => exact ih i v (Nat.lt_of_succ_lt_succ hi)

/-- Allocation leaves the values of existing references unchanged. -/
theorem heap_getD_append_lt : ∀ (h t : Heap) (j : Nat), j < h.length →
    (h ++ t).getD j storeStateDefault = h.getD j storeStateDefault := by
  intro h
  induction h with
  | nil => intro t j hj; exact absurd hj (Nat.not_lt_zero j)
  | cons a h ih =>
    intro t j hj
    cases j with
    | zero => rfl
    | succ j => exact ih t j (Nat.lt_of_succ_lt_succ hj)

/-- Reading a freshly allocated reference yields the allocated value. -/
theorem heap_getD_append_self (h : Heap) (v : StoreState) :
    (h ++ [v]).getD h.length storeStateDefault = v := by
  induction h with
  | nil => rfl
  | cons a h ih => exact ih

/-- The trim/retry loop only ever writes to the reference it works on (or
to fresh allocations): any other pre-existing reference keeps its value. -/
theorem retryLoopOp_preserves (write : Nat → StoreState → Option JsError) :
    ∀ (fuel attempt : Nat) (h : Heap) (wr r : Nat), r < h.length → r ≠ wr →
      (retryLoopOp write attempt fuel h wr).1.getD r storeStateDefault =
        h.getD r storeStateDefault := by
  intro fuel
  induction fuel with
  | zero => intro attempt h wr r _ _; rfl
  | succ fuel ih =>
    intro attempt h wr r hr hne
    by_cases hip : trimInPlace (h.getD wr storeStateDefault)
    · have ht : trimStateOp h wr =
          (h.set wr (trimState (h.getD wr storeStateDefault)), wr) := by
        simp only [trimStateOp, if_pos hip]
      cases hw : write attempt
          ((h.set wr (trimState (h.getD wr storeStateDefault))).getD wr
            storeStateDefault) with
      | none =>
        simp only [retryLoopOp, ht, hw]
        exact heap_getD_set_ne h wr r _ (Ne.symm hne)
      | some e =>
        simp only [retryLoopOp, ht, hw]
        rw [ih (attempt + 1) (h.set wr (trimState (h.getD wr storeStateDefault)))
          wr r (by simpa using hr) hne]
        exact heap_getD_set_ne h wr r _ (Ne.symm hne)
    · have ht : trimStateOp h wr =
          (h ++ [trimState (h.getD wr storeStateDefault)], h.length) := by
        simp only [trimStateOp, if_neg hip]
      cases hw : write attempt
          ((h ++ [trimState (h.getD wr storeStateDefault)]).getD h.length
            storeStateDefault) with
      | none =>
        simp only [retryLoopOp, ht, hw]
        exact heap_getD_append_lt h _ r hr
      | some e =>
        simp only [retryLoopOp, ht, hw]
        rw [ih (attempt + 1) (h ++ [trimState (h.getD wr storeStateDefault)])
          h.length r (by simp [List.length_append]; omega) (Nat.ne_of_lt hr)]
        exact heap_getD_append_lt h _ r hr

/-! ## C3 -/

/-- C3: the quota-recovery path operates only on the deep copy: for every
write oracle and every heap, the live state object's value is unchanged
after the whole recovery (deep copy, then up to 100 trim iterations). -/
theorem recovery_path_never_mutates_live_state
    (write : Nat → StoreState → Option JsError) (h : Heap) (live : Nat)
    (hlive : live < h.length) :
    (recoveryOp write h live).1.getD live storeStateDefault =
      h.getD live storeStateDefault := by
  show (retryLoopOp write 1 100 (h ++ [h.getD live storeStateDefault])
      h.length).1.getD live storeStateDefault = _
  rw [retryLoopOp_preserves write 100 1 (h ++ [h.getD live storeStateDefault])
    h.length live (by simp [List.length_append]; omega) (Nat.ne_of_lt hlive)]
  exact heap_getD_append_lt h _ live hlive

/-- Witness for C3: a concrete heap holding one live state and an
always-failing write oracle. -/
theorem recovery_path_never_mutates_live_state_witness :
    0 < ([storeStateDefault] : Heap).length ∧
    (recoveryOp (fun _ _ => some JsError.quotaExceeded) [storeStateDefault]
        0).1.getD 0 storeStateDefault =
      ([storeStateDefault] : Heap).getD 0 storeStateDefault :=
  ⟨by decide, recovery_path_never_mutates_live_state
    (fun _ _ => some JsError.quotaExceeded) [storeStateDefault] 0 (by decide)⟩

/-! ## C8 -/

/-- A state whose only non-empty collection is the contact map. -/
def c8State : StoreState :=
  { gameSpecs := []
    matchesList := []
    phoneNumberToContact := [("555", "contact")]
    myUser := "me"
    windowDimensions := none }

/-- C8 counterexample: `trimState` is not mutation-free.  On a state whose
only non-empty collection is the contact map, the call clears the contact
map of its argument object in place: after the call, the input object no
longer holds its original value. -/
theorem trim_mutates_input_in_place
    : (trimStateOp [c8State] 0).1.getD 0 storeStateDefault =
        { c8State with phoneNumberToContact := [] } ∧
      (trimStateOp [c8State] 0).1.getD 0 storeStateDefault ≠ c8State := by
  exact ⟨by decide, by decide⟩

/-- C8 amended: `trimState` deterministically produces the value
`trimState state` as its result, but not purely: in the spec-deletion,
match-removal and contact-clearing branches it mutates the input object in
place and returns that same object; only the final default branch leaves
the input unmutated and returns a fresh object. -/
theorem trim_value_correct_but_mutates_in_place (h : Heap) (r : Nat)
    (hr : r < h.length) :
    (trimStateOp h r).1.getD (trimStateOp h r).2 storeStateDefault =
      trimState (h.getD r storeStateDefault) ∧
    (trimInPlace (h.getD r storeStateDefault) → (trimStateOp h r).2 = r) ∧
    (¬ trimInPlace (h.getD r storeStateDefault) →
      (trimStateOp h r).2 = h.length ∧
      (trimStateOp h r).1.getD r storeStateDefault =
        h.getD r storeStateDefault) := by
  by_cases hip : trimInPlace (h.getD r storeStateDefault)
  · have ht : trimStateOp h r =
        (h.set r (trimState (h.getD r storeStateDefault)), r) := by
      simp only [trimStateOp, if_pos hip]
    refine ⟨?_, fun _ => by rw [ht], fun hn => absurd hip hn⟩
    rw [ht]
    exact heap_getD_set_self h r _ hr
  · have ht : trimStateOp h r =
        (h ++ [trimState (h.getD r storeStateDefault)], h.length) := by
      simp only [trimStateOp, if_neg hip]
    refine ⟨?_, fun hp => absurd hp hip, fun _ => ⟨by rw [ht], ?_⟩⟩
    · rw [ht]
      exact heap_getD_append_self h _
    · rw [ht]
      exact heap_getD_append_lt h _ r hr

/-- Witness for the amended C8 at the concrete one-object heap. -/
theorem trim_value_correct_but_mutates_in_place_witness :
    0 < ([c8State] : Heap).length ∧
    ((trimStateOp [c8State] 0).1.getD (trimStateOp [c8State] 0).2
        storeStateDefault =
      trimState (([c8State] : Heap).getD 0 storeStateDefault) ∧
    (trimInPlace (([c8State] : Heap).getD 0 storeStateDefault) →
      (trimStateOp [c8State] 0).2 = 0) ∧
    (¬ trimInPlace (([c8State] : Heap).getD 0 storeStateDefault) →
      (trimStateOp [c8State] 0).2 = ([c8State] : Heap).length ∧
      (trimStateOp [c8State] 0).1.getD 0 storeStateDefault =
        ([c8State] : Heap).getD 0 storeStateDefault)) :=
  ⟨by decide, trim_value_correct_but_mutates_in_place [c8State] 0 (by decide)⟩

end NewGamePortal
